import Mathlib

/-!
# Formal verification of the note-taker rate-limiting and webhook-verification core

This file shallowly embeds the two core components of the repository:

* `src/lib/rate-limiter.ts` — the in-memory fixed-window `RateLimiter` class,
  the `rateLimiters` policy table, `getClientIdentifier`,
  `createRateLimitResponse` and `addRateLimitHeaders`;
* `src/lib/webhook-utils.ts` — `verifyClerkWebhook` and
  `isWebhookTimestampValid` (HMAC-SHA256 signature verification and
  timestamp freshness);
* `src/middleware.ts` — the request dispatcher (route classification,
  identity resolution, rate-limit enforcement, try/catch error policy);
* the `POST` handler of the Clerk webhook route (signature/secret/timestamp
  checks in source order).

JavaScript numbers holding integral timestamps and counters are embedded as
`Int` (all arithmetic in the source stays far below 2^53, so integer
semantics coincide).  JavaScript `Map` is embedded as an association list
with JS `Map.set` semantics (replace in place, else append).  The
probabilistic cleanup trigger (`Math.random() < 0.01`) is embedded as an
explicit `Bool` parameter: theorems quantify over it, counterexamples pick a
value the source can produce.  Strings are hashed via their UTF-8 bytes,
exactly as Node's `crypto.createHmac(...).update(string)` does.
-/

set_option linter.unusedVariables false

/-! ## Byte-level helpers (UTF-8, 32-bit words, SHA-256, HMAC, hex) -/

/-- 32-bit truncation: JavaScript/crypto word arithmetic is mod 2^32. -/
def w32 (n : Nat) : Nat := n % 4294967296

/-- Right rotation of a 32-bit word (input assumed `< 2^32`). -/
def rotr (k n : Nat) : Nat := w32 ((n >>> k) ||| (n <<< (32 - k)))

/-- SHA-256 `Ch` function. -/
def shaCh (x y z : Nat) : Nat := (x &&& y) ^^^ ((x ^^^ 4294967295) &&& z)

/-- SHA-256 `Maj` function. -/
def shaMaj (x y z : Nat) : Nat := (x &&& y) ^^^ (x &&& z) ^^^ (y &&& z)

/-- SHA-256 big sigma 0. -/
def bigS0 (x : Nat) : Nat := (rotr 2 x) ^^^ (rotr 13 x) ^^^ (rotr 22 x)

/-- SHA-256 big sigma 1. -/
def bigS1 (x : Nat) : Nat := (rotr 6 x) ^^^ (rotr 11 x) ^^^ (rotr 25 x)

/-- SHA-256 small sigma 0. -/
def smallS0 (x : Nat) : Nat := (rotr 7 x) ^^^ (rotr 18 x) ^^^ (x >>> 3)

/-- SHA-256 small sigma 1. -/
def smallS1 (x : Nat) : Nat := (rotr 17 x) ^^^ (rotr 19 x) ^^^ (x >>> 10)

/-- The 64 SHA-256 round constants. -/
def shaK : List Nat :=
  [1116352408, 1899447441, 3049323471, 3921009573, 961987163, 1508970993,
   2453635748, 2870763221, 3624381080, 310598401, 607225278, 1426881987,
   1925078388, 2162078206, 2614888103, 3248222580, 3835390401, 4022224774,
   264347078, 604807628, 770255983, 1249150122, 1555081692, 1996064986,
   2554220882, 2821834349, 2952996808, 3210313671, 3336571891, 3584528711,
   113926993, 338241895, 666307205, 773529912, 1294757372, 1396182291,
   1695183700, 1986661051, 2177026350, 2456956037, 2730485921, 2820302411,
   3259730800, 3345764771, 3516065817, 3600352804, 4094571909, 275423344,
   430227734, 506948616, 659060556, 883997877, 958139571, 1322822218,
   1537002063, 1747873779, 1955562222, 2024104815, 2227730452, 2361852424,
   2428436474, 2756734187, 3204031479, 3329325298]

/-- SHA-256 working state: eight 32-bit words. -/
structure H8 where
  a : Nat
  b : Nat
  c : Nat
  d : Nat
  e : Nat
  f : Nat
  g : Nat
  h : Nat
deriving Repr, DecidableEq

/-- Initial SHA-256 hash value. -/
def shaH0 : H8 :=
  ⟨1779033703, 3144134277, 1013904242, 2773480762,
   1359893119, 2600822924, 528734635, 1541459225⟩

/-- One SHA-256 round: consume one `(Kt, Wt)` pair. -/
def shaRound (s : H8) (kw : Nat × Nat) : H8 :=
  let t1 := w32 (s.h + bigS1 s.e + shaCh s.e s.f s.g + kw.1 + kw.2)
  let t2 := w32 (bigS0 s.a + shaMaj s.a s.b s.c)
  ⟨w32 (t1 + t2), s.a, s.b, s.c, w32 (s.d + t1), s.e, s.f, s.g⟩

/-- Extend the 16 message words to 64: `ws` holds the words built so far,
newest first; each step prepends `W[t]` computed from `W[t-2]`, `W[t-7]`,
`W[t-15]`, `W[t-16]`. -/
def extendW : Nat → List Nat → List Nat
  | 0, ws => ws
  | fuel + 1, ws =>
    let wt := w32 (smallS1 (ws.getD 1 0) + ws.getD 6 0 +
                   smallS0 (ws.getD 14 0) + ws.getD 15 0)
    extendW fuel (wt :: ws)

/-- SHA-256 compression of one 16-word block into the running hash. -/
def shaCompress (hv : H8) (block : List Nat) : H8 :=
  let ws := (extendW 48 block.reverse).reverse
  let s := (shaK.zip ws).foldl shaRound hv
  ⟨w32 (hv.a + s.a), w32 (hv.b + s.b), w32 (hv.c + s.c), w32 (hv.d + s.d),
   w32 (hv.e + s.e), w32 (hv.f + s.f), w32 (hv.g + s.g), w32 (hv.h + s.h)⟩

/-- Group a list of bytes into big-endian 32-bit words (length divisible by 4). -/
def bytesToWords : List Nat → List Nat
  | b0 :: b1 :: b2 :: b3 :: rest =>
      (b0 * 16777216 + b1 * 65536 + b2 * 256 + b3) :: bytesToWords rest
  | _ => []

/-- SHA-256 padding: append `0x80`, zeros to 56 mod 64, then the 64-bit
big-endian bit length. -/
def padMessage (msg : List Nat) : List Nat :=
  let len := msg.length
  let zeros := (119 - len % 64) % 64
  let bits := len * 8
  msg ++ 128 :: List.replicate zeros 0 ++
    [(bits >>> 56) % 256, (bits >>> 48) % 256, (bits >>> 40) % 256,
     (bits >>> 32) % 256, (bits >>> 24) % 256, (bits >>> 16) % 256,
     (bits >>> 8) % 256, bits % 256]

/-- Compress successive 16-word blocks; `fuel` bounds the recursion by the
list length. -/
def compressBlocks : Nat → H8 → List Nat → H8
  | _, hv, [] => hv
  | 0, hv, _ => hv
  | fuel + 1, hv, ws => compressBlocks fuel (shaCompress hv (ws.take 16)) (ws.drop 16)

/-- Big-endian bytes of a 32-bit word. -/
def wordBytes (w : Nat) : List Nat :=
  [(w >>> 24) % 256, (w >>> 16) % 256, (w >>> 8) % 256, w % 256]

/-- SHA-256 of a byte list, as a list of 32 bytes. -/
def sha256 (msg : List Nat) : List Nat :=
  let ws := bytesToWords (padMessage msg)
  let hv := compressBlocks ws.length shaH0 ws
  wordBytes hv.a ++ wordBytes hv.b ++ wordBytes hv.c ++ wordBytes hv.d ++
  wordBytes hv.e ++ wordBytes hv.f ++ wordBytes hv.g ++ wordBytes hv.h

/-- HMAC-SHA256 (RFC 2104) with a 64-byte block, exactly what Node's
`createHmac('sha256', secret)` computes. -/
def hmacSha256 (key msg : List Nat) : List Nat :=
  let k0 := if 64 < key.length then sha256 key else key
  let kp := k0 ++ List.replicate (64 - k0.length) 0
  let ipadded := kp.map (fun b => b ^^^ 54)
  let opadded := kp.map (fun b => b ^^^ 92)
  sha256 (opadded ++ sha256 (ipadded ++ msg))

/-- UTF-8 encoding of one Unicode code point. -/
def utf8Encode (c : Nat) : List Nat :=
  if c < 128 then [c]
  else if c < 2048 then [192 + c / 64, 128 + c % 64]
  else if c < 65536 then [224 + c / 4096, 128 + (c / 64) % 64, 128 + c % 64]
  else [240 + c / 262144, 128 + (c / 4096) % 64, 128 + (c / 64) % 64, 128 + c % 64]

/-- UTF-8 bytes of a character list. -/
def strBytesL (l : List Char) : List Nat := (l.map (fun c => utf8Encode c.toNat)).flatten

/-- UTF-8 bytes of a string (Node hashes JS strings as UTF-8). -/
def strBytes (s : String) : List Nat := strBytesL s.data

/-- Lowercase hex digit for `n < 16` (`'0'`–`'9'`, `'a'`–`'f'`). -/
def hexDigitChar (n : Nat) : Char :=
  match n with
  | 0 => '0' | 1 => '1' | 2 => '2' | 3 => '3' | 4 => '4'
  | 5 => '5' | 6 => '6' | 7 => '7' | 8 => '8' | 9 => '9'
  | 10 => 'a' | 11 => 'b' | 12 => 'c' | 13 => 'd' | 14 => 'e'
  | _ => 'f'

/-- Hex encoding of one byte, two lowercase digits (`Buffer.digest('hex')`). -/
def hexByte (b : Nat) : List Char := [hexDigitChar (b / 16), hexDigitChar (b % 16)]

/-- Hex encoding of a byte list. -/
def hexEncode (bs : List Nat) : List Char := (bs.map hexByte).flatten

/-- Value of one hex digit, accepting both cases (Node `Buffer.from(_, 'hex')`). -/
def hexVal (c : Char) : Option Nat :=
  if 48 ≤ c.toNat ∧ c.toNat ≤ 57 then some (c.toNat - 48)
  else if 97 ≤ c.toNat ∧ c.toNat ≤ 102 then some (c.toNat - 87)
  else if 65 ≤ c.toNat ∧ c.toNat ≤ 70 then some (c.toNat - 55)
  else none

/-- `Buffer.from(hex, 'hex')`: decode pairs of hex digits, stopping at the
first invalid pair or odd tail. -/
def hexDecode : List Char → List Nat
  | c1 :: c2 :: rest =>
    match hexVal c1, hexVal c2 with
    | some hi, some lo => (16 * hi + lo) :: hexDecode rest
    | _, _ => []
  | _ => []

/-! ## String helpers (JS `split`, `startsWith`, `parseInt`, number printing) -/

/-- JS `String.prototype.split(c)` on character lists: `"".split(c) = [""]`. -/
def splitChar (c : Char) : List Char → List (List Char)
  | [] => [[]]
  | x :: xs =>
    if x == c then [] :: splitChar c xs
    else
      match splitChar c xs with
      | [] => [[x]]
      | h :: t => (x :: h) :: t

/-- JS `String.prototype.startsWith` on character lists (`strStartsWith s p`
asks whether `p` is an initial segment of `s`). -/
def strStartsWith : List Char → List Char → Bool
  | _, [] => true
  | [], _ :: _ => false
  | c :: cs, p :: ps => c == p && strStartsWith cs ps

/-- Decimal digit character for `n < 10`. -/
def digitChar (n : Nat) : Char :=
  match n with
  | 0 => '0' | 1 => '1' | 2 => '2' | 3 => '3' | 4 => '4'
  | 5 => '5' | 6 => '6' | 7 => '7' | 8 => '8' | _ => '9'

/-- Decimal digits of `n`, most significant first (`fuel`-bounded recursion). -/
def natDigitsAux : Nat → Nat → List Char
  | 0, _ => []
  | fuel + 1, n =>
    if n < 10 then [digitChar n]
    else natDigitsAux fuel (n / 10) ++ [digitChar (n % 10)]

/-- Decimal digits of `n`. -/
def natDigits (n : Nat) : List Char := natDigitsAux (n + 1) n

/-- Decimal string of `n` (JS `Number.prototype.toString` for naturals). -/
def natToStr (n : Nat) : String := String.mk (natDigits n)

/-- Decimal string of an integer (JS `Number.prototype.toString` for integers). -/
def intToStr (i : Int) : String :=
  if i < 0 then "-" ++ natToStr i.natAbs else natToStr i.natAbs

/-- Is `c` an ASCII decimal digit? -/
def isDigitChar (c : Char) : Bool := 48 ≤ c.toNat && c.toNat ≤ 57

/-- Is `c` JS `parseInt` leading whitespace? -/
def isJsWhitespace (c : Char) : Bool :=
  c == ' ' || c == '\t' || c == '\n' || c == '\r'

/-- Accumulate leading decimal digits, stopping at the first non-digit
(JS `parseInt` semantics). -/
def parseDigitsAux : List Char → Nat → Nat
  | [], acc => acc
  | c :: cs, acc =>
    if isDigitChar c then parseDigitsAux cs (acc * 10 + (c.toNat - 48)) else acc

/-- Leading decimal digits of `l`, `none` when the first character is not a
digit (JS `parseInt` returns `NaN`). -/
def parseDigits (l : List Char) : Option Nat :=
  match l with
  | [] => none
  | c :: _ => if isDigitChar c then some (parseDigitsAux l 0) else none

/-- JS `parseInt(s, 10)`: skip leading whitespace, optional sign, leading
digits; `none` models `NaN`. -/
def parseIntJS (l : List Char) : Option Int :=
  match l.dropWhile isJsWhitespace with
  | [] => none
  | c :: rest =>
    if c == '-' then (parseDigits rest).map (fun n => -(n : Int))
    else if c == '+' then (parseDigits rest).map (fun n => (n : Int))
    else (parseDigits (c :: rest)).map (fun n => (n : Int))

/-- JS falsiness of a nullable string: `null` and `""` are falsy. -/
def jsFalsyStr : Option String → Bool
  | none => true
  | some s => s == ""

/-! ## `src/lib/webhook-utils.ts` -/

/-- `verifyClerkWebhook(payload, signature, secret)` from
`src/lib/webhook-utils.ts`: reject falsy signature/secret, split the header
on `','`, extract the `t=` and `v1=` parts, recompute
`hex(HMAC-SHA256(secret, timestamp + "." + payload))`, hex-decode both
signatures, compare lengths then bytes (`timingSafeEqual` is byte equality
on equal-length buffers). -/
def verifyClerkWebhook (payload : String) (signature : Option String) (secret : String) : Bool :=
  if jsFalsyStr signature || secret == "" then false
  else
    let parts := splitChar ',' ((signature.getD "").data)
    let timestamp := (parts.find? (fun p => strStartsWith p ['t', '='])).map (List.drop 2)
    let provided := (parts.find? (fun p => strStartsWith p ['v', '1', '='])).map (List.drop 3)
    match timestamp, provided with
    | some ts, some ps =>
      if ts.isEmpty || ps.isEmpty then false
      else
        let signedPayload := ts ++ '.' :: payload.data
        let expected := hexEncode (hmacSha256 (strBytes secret) (strBytesL signedPayload))
        let providedBuffer := hexDecode ps
        let expectedBuffer := hexDecode expected
        if providedBuffer.length ≠ expectedBuffer.length then false
        else providedBuffer == expectedBuffer
    | _, _ => false

/-- `isWebhookTimestampValid(signature, toleranceSeconds = 300)` from
`src/lib/webhook-utils.ts`; `nowSec` is `Math.floor(Date.now() / 1000)`,
passed explicitly.  A missing `t=` part or a `NaN` parse yields `false`
(`Math.abs(now - NaN) <= tol` is `false` in JS). -/
def isWebhookTimestampValid (signature : String) (toleranceSeconds : Int) (nowSec : Int) : Bool :=
  let parts := splitChar ',' signature.data
  match parts.find? (fun p => strStartsWith p ['t', '=']) with
  | none => false
  | some tsPart =>
    match parseIntJS (tsPart.drop 2) with
    | none => false
    | some t => decide (((nowSec - t).natAbs : Int) ≤ toleranceSeconds)

/-- The signature header the spec's round-trip property constructs:
`t=<timestamp>,v1=<hex(HMAC-SHA256(secret, timestamp + "." + rawBody))>`. -/
def buildSignatureHeader (secret body : String) (ts : Nat) : String :=
  "t=" ++ natToStr ts ++ ",v1=" ++
    String.mk (hexEncode (hmacSha256 (strBytes secret)
      (strBytesL ((natDigits ts) ++ '.' :: body.data))))

/-- A single-character change: same length, exactly one position differs. -/
def singleCharChange (s t : String) : Prop :=
  ∃ pre c c' suf, c ≠ c' ∧ s.data = pre ++ c :: suf ∧ t.data = pre ++ c' :: suf

/-! ## `src/lib/rate-limiter.ts` -/

/-- One entry of the `RateLimiter`'s `requests` map:
`{ count: number; resetTime: number }`. -/
structure Entry where
  count : Int
  resetTime : Int
deriving Repr, DecidableEq

/-- The `requests` map, as an association list in JS `Map` insertion order. -/
abbrev RLState : Type := List (String × Entry)

/-- `Map.get`. -/
def lookupEntry : RLState → String → Option Entry
  | [], _ => none
  | (k, v) :: rest, id => if k = id then some v else lookupEntry rest id

/-- `Map.set`: replace in place when the key exists, else append (JS `Map`
keeps the original insertion position on overwrite). -/
def setEntry : RLState → String → Entry → RLState
  | [], id, e => [(id, e)]
  | (k, v) :: rest, id, e =>
    if k = id then (k, e) :: rest else (k, v) :: setEntry rest id e

/-- A `RateLimiter` instance: its two constructor constants plus the mutable
`requests` map. -/
structure RateLimiter where
  windowMs : Int
  maxRequests : Int
  requests : RLState
deriving Repr, DecidableEq

/-- The `Decision` object `isAllowed` returns.  In the source `resetTime`
and `remaining` are optional fields, but every branch sets both, so they are
embedded as plain fields. -/
structure Decision where
  allowed : Bool
  resetTime : Int
  remaining : Int
deriving Repr, DecidableEq

/-- `RateLimiter.cleanup(now)`: delete every entry with `now > resetTime`. -/
def cleanup (now : Int) (s : RLState) : RLState :=
  s.filter (fun p => !(decide (now > p.2.resetTime)))

/-- `RateLimiter.isAllowed(identifier)` at wall-clock `now`.  `doCleanup`
embeds the probabilistic sweep trigger `Math.random() < 0.01`.  Source
order: read the entry, maybe sweep, then (fresh window | deny | increment).
The deny branch leaves the entry untouched; the increment branch mutates the
entry object in place, embedded as `setEntry` on the (possibly swept) map,
in which the entry is still present because `now ≤ resetTime`. -/
def isAllowed (rl : RateLimiter) (now : Int) (identifier : String) (doCleanup : Bool) :
    Decision × RateLimiter :=
  let requestData := lookupEntry rl.requests identifier
  let reqs := if doCleanup then cleanup now rl.requests else rl.requests
  match requestData with
  | none =>
    (⟨true, now + rl.windowMs, rl.maxRequests - 1⟩,
     { rl with requests := setEntry reqs identifier ⟨1, now + rl.windowMs⟩ })
  | some e =>
    if now > e.resetTime then
      (⟨true, now + rl.windowMs, rl.maxRequests - 1⟩,
       { rl with requests := setEntry reqs identifier ⟨1, now + rl.windowMs⟩ })
    else if e.count ≥ rl.maxRequests then
      (⟨false, e.resetTime, 0⟩, { rl with requests := reqs })
    else
      (⟨true, e.resetTime, rl.maxRequests - (e.count + 1)⟩,
       { rl with requests := setEntry reqs identifier ⟨e.count + 1, e.resetTime⟩ })

/-- The four route-class policies of the exported `rateLimiters` object. -/
structure RateLimiters where
  ai : RateLimiter
  api : RateLimiter
  authL : RateLimiter
  notes : RateLimiter
deriving Repr, DecidableEq

/-- The `rateLimiters` table as constructed at module load. -/
def rateLimitersInit : RateLimiters :=
  { ai := ⟨60000, 5, []⟩, api := ⟨60000, 100, []⟩,
    authL := ⟨60000, 10, []⟩, notes := ⟨60000, 50, []⟩ }

/-- Names for the four policies, to state isolation across policies. -/
inductive PolicyTag where
  | ai
  | api
  | authL
  | notes
deriving Repr, DecidableEq

/-- Project one policy's limiter out of the table. -/
def RateLimiters.get (rls : RateLimiters) : PolicyTag → RateLimiter
  | .ai => rls.ai
  | .api => rls.api
  | .authL => rls.authL
  | .notes => rls.notes

/-- Run `isAllowed` against one policy's limiter, leaving the rest of the
table as is. -/
def callPolicy (rls : RateLimiters) (tag : PolicyTag) (now : Int) (id : String)
    (clean : Bool) : Decision × RateLimiters :=
  match tag with
  | .ai => let r := isAllowed rls.ai now id clean; (r.1, { rls with ai := r.2 })
  | .api => let r := isAllowed rls.api now id clean; (r.1, { rls with api := r.2 })
  | .authL => let r := isAllowed rls.authL now id clean; (r.1, { rls with authL := r.2 })
  | .notes => let r := isAllowed rls.notes now id clean; (r.1, { rls with notes := r.2 })

/-- A whole call sequence against one policy (for the isolation claims). -/
def runCallsPolicy (tag : PolicyTag) : List (Int × String × Bool) → RateLimiters → RateLimiters
  | [], rls => rls
  | (now, id, clean) :: rest, rls => runCallsPolicy tag rest (callPolicy rls tag now id clean).2

/-- A whole call sequence against a single limiter's state. -/
def runCalls : List (Int × String × Bool) → RateLimiter → RateLimiter
  | [], rl => rl
  | (now, id, clean) :: rest, rl => runCalls rest (isAllowed rl now id clean).2

/-- `getClientIdentifier(request, userId?)`: `user:<id>` when the userId is
truthy, else the first hop of `x-forwarded-for`, else `x-real-ip`, else
`"unknown"`, with `ip:` prepended.  Empty strings are falsy at every `||`. -/
def getClientIdentifier (xff xri : Option String) (userId : Option String) : String :=
  if jsFalsyStr userId then
    let firstHop : Option String :=
      match xff with
      | none => none
      | some f =>
        let h := String.mk (((splitChar ',' f.data).headD []))
        if h = "" then none else some h
    let ip :=
      match firstHop with
      | some h => h
      | none =>
        match xri with
        | some r => if r = "" then "unknown" else r
        | none => "unknown"
    "ip:" ++ ip
  else "user:" ++ userId.getD ""

/-! ## Responses (`createRateLimitResponse`, `addRateLimitHeaders`) -/

/-- `Headers.set`: replace the value when the name exists, else append. -/
def setHeader : List (String × String) → String → String → List (String × String)
  | [], k, v => [(k, v)]
  | (k', v') :: rest, k, v =>
    if k' = k then (k', v) :: rest else (k', v') :: setHeader rest k v

/-- `Headers.get`. -/
def getHeader : List (String × String) → String → Option String
  | [], _ => none
  | (k', v') :: rest, k => if k' = k then some v' else getHeader rest k

/-- JS `Math.ceil(a / b)` for integral `a` and positive integral `b`. -/
def jsCeilDiv (a b : Int) : Int := -((-a).fdiv b)

/-- Two-digit zero-padded decimal. -/
def pad2 (n : Nat) : String := if n < 10 then "0" ++ natToStr n else natToStr n

/-- Three-digit zero-padded decimal. -/
def pad3 (n : Nat) : String :=
  if n < 10 then "00" ++ natToStr n
  else if n < 100 then "0" ++ natToStr n
  else natToStr n

/-- Four-digit zero-padded decimal. -/
def pad4 (n : Nat) : String :=
  if n < 10 then "000" ++ natToStr n
  else if n < 100 then "00" ++ natToStr n
  else if n < 1000 then "0" ++ natToStr n
  else natToStr n

/-- Proleptic Gregorian civil date from days since 1970-01-01
(the standard era-based algorithm ECMAScript's UTC getters follow). -/
def civilFromDays (z : Int) : Int × Nat × Nat :=
  let z' := z + 719468
  let era := z'.fdiv 146097
  let doe := (z' - era * 146097).toNat
  let yoe := (doe - doe / 1460 + doe / 36524 - doe / 146096) / 365
  let doy := doe - (365 * yoe + yoe / 4 - yoe / 100)
  let mp := (5 * doy + 2) / 153
  let d := doy - (153 * mp + 2) / 5 + 1
  let m := if mp < 10 then mp + 3 else mp - 9
  let y := (yoe : Int) + era * 400 + (if m ≤ 2 then 1 else 0)
  (y, m, d)

/-- `new Date(ms).toISOString()`: `YYYY-MM-DDTHH:mm:ss.sssZ` in UTC
(expanded `±YYYYYY` form outside years 0–9999). -/
def dateToISOString (ms : Int) : String :=
  let q := ms.fdiv 1000
  let msPart := (ms - q * 1000).toNat
  let days := q.fdiv 86400
  let secs := (q - days * 86400).toNat
  let ymd := civilFromDays days
  let yearStr :=
    if 0 ≤ ymd.1 ∧ ymd.1 ≤ 9999 then pad4 ymd.1.toNat
    else if ymd.1 < 0 then "-" ++ pad4 ymd.1.natAbs ++ ""
    else "+" ++ pad4 ymd.1.toNat
  yearStr ++ "-" ++ pad2 ymd.2.1 ++ "-" ++ pad2 ymd.2.2 ++ "T" ++
    pad2 (secs / 3600) ++ ":" ++ pad2 ((secs / 60) % 60) ++ ":" ++
    pad2 (secs % 60) ++ "." ++ pad3 msPart ++ "Z"

/-- A `NextResponse` as far as this core observes it: status, the JSON body
fields the 429 rejection carries, and the header list. -/
structure Response where
  status : Int
  bodyError : Option String
  bodyResetTime : Option String
  headers : List (String × String)
deriving Repr, DecidableEq

/-- `NextResponse.next()` as the middleware produces it before any
rate-limit header is attached (security headers are added only when
`NODE_ENV === 'development'`; the embedding models the production path). -/
def nextResponse : Response := ⟨200, none, none, []⟩

/-- `createRateLimitResponse(resetTime, remaining = 0)` at wall-clock `now`:
a 429 JSON response with the human-readable message, the ISO-8601
`resetTime`, and the four rate-limit headers; `Retry-After` is
`Math.ceil((resetTime - Date.now()) / 1000)`. -/
def createRateLimitResponse (resetTime : Int) (remaining : Int) (now : Int) : Response :=
  { status := 429
    bodyError := some "Too many requests. Please try again later."
    bodyResetTime := some (dateToISOString resetTime)
    headers :=
      setHeader
        (setHeader
          (setHeader
            (setHeader [] "X-RateLimit-Limit" "5")
            "X-RateLimit-Remaining" (intToStr remaining))
          "X-RateLimit-Reset" (intToStr (jsCeilDiv resetTime 1000)))
        "Retry-After" (intToStr (jsCeilDiv (resetTime - now) 1000)) }

/-- `addRateLimitHeaders(response, remaining, resetTime)`: set exactly
`X-RateLimit-Remaining` and `X-RateLimit-Reset` on the given response. -/
def addRateLimitHeaders (response : Response) (remaining : Int) (resetTime : Int) : Response :=
  { response with
      headers :=
        setHeader
          (setHeader response.headers "X-RateLimit-Remaining" (intToStr remaining))
          "X-RateLimit-Reset" (intToStr (jsCeilDiv resetTime 1000)) }

/-! ## The Clerk webhook `POST` handler (`src/app/api/clerk-webhook/route.ts`) -/

/-- Outcome of the webhook handler up to and including its security gate.
Everything after a successful signature check (JSON parsing, shape
validation, user sync) counts as `processed`: the claims about the secret
concern only whether the gate lets a request through and with which
rejection. -/
inductive WebhookResult where
  | missingSignature
  | notConfigured
  | invalidTimestamp
  | invalidSignature
  | processed
deriving Repr, DecidableEq

/-- HTTP status the handler returns for each gate outcome (`processed`
continues into the 2xx/4xx business paths; its entry here is the 200 of the
success path). -/
def webhookStatus : WebhookResult → Int
  | .missingSignature => 401
  | .notConfigured => 500
  | .invalidTimestamp => 401
  | .invalidSignature => 401
  | .processed => 200

/-- The `POST` handler's security gate, in source order: missing/empty
`clerk-signature` header → 401; falsy `CLERK_WEBHOOK_SECRET` → 500
`Webhook not configured`; stale timestamp → 401; bad signature → 401;
otherwise the request is processed. -/
def clerkWebhookPOST (signature : Option String) (webhookSecret : Option String)
    (body : String) (nowSec : Int) : WebhookResult :=
  if jsFalsyStr signature then .missingSignature
  else if jsFalsyStr webhookSecret then .notConfigured
  else if !(isWebhookTimestampValid (signature.getD "") 300 nowSec) then .invalidTimestamp
  else if !(verifyClerkWebhook body signature (webhookSecret.getD "")) then .invalidSignature
  else .processed

/-! ## `src/middleware.ts` -/

/-- The authentication collaborator per request: `await auth()` either
resolves to an optional `userId` or throws. -/
inductive AuthState where
  | okAuth (userId : Option String)
  | throwsAuth
deriving Repr, DecidableEq

/-- `await auth()` as an exception-aware computation. -/
def getAuth : AuthState → Except Unit (Option String)
  | .okAuth u => .ok u
  | .throwsAuth => .error ()

/-- `await auth.protect()`: succeeds only for an authenticated user; throws
(redirect / 404) when unauthenticated or when the collaborator is broken. -/
def authProtect : AuthState → Except Unit Unit
  | .okAuth (some uid) => if uid = "" then .error () else .ok ()
  | .okAuth none => .error ()
  | .throwsAuth => .error ()

/-- Does `s` start with `pre`?  (`path-to-regexp` turns `'<pre>(.*)'` into a
prefix match on the path.) -/
def pathStartsWith (pre s : String) : Bool := strStartsWith s.data pre.data

/-- `createRouteMatcher(['/api/generate-note(.*)'])`. -/
def isAIRoute (p : String) : Bool := pathStartsWith "/api/generate-note" p

/-- `createRouteMatcher(['/api/notes(.*)'])`. -/
def isNotesAPIRoute (p : String) : Bool := pathStartsWith "/api/notes" p

/-- `createRouteMatcher(['/sign-in(.*)', '/sign-up(.*)'])`. -/
def isAuthRoute (p : String) : Bool :=
  pathStartsWith "/sign-in" p || pathStartsWith "/sign-up" p

/-- `createRouteMatcher(['/', '/sign-in(.*)', '/sign-up(.*)', '/api/clerk-webhook(.*)'])`. -/
def isPublicRoute (p : String) : Bool :=
  p == "/" || pathStartsWith "/sign-in" p || pathStartsWith "/sign-up" p ||
    pathStartsWith "/api/clerk-webhook" p

/-- `createRouteMatcher(['/dashboard(.*)', '/notes(.*)', '/api/notes(.*)', '/api/generate-note(.*)'])`. -/
def isProtectedRoute (p : String) : Bool :=
  pathStartsWith "/dashboard" p || pathStartsWith "/notes" p ||
    pathStartsWith "/api/notes" p || pathStartsWith "/api/generate-note" p

/-- What the middleware returns for a request. -/
inductive MWOutcome where
  /-- `createRateLimitResponse` was returned: the request is rejected. -/
  | rateLimited (resp : Response)
  /-- The request proceeds with the accumulated response headers. -/
  | proceed (resp : Response)
  /-- `auth.protect()` threw outside the try/catch: the request does not
  reach its handler (redirect / 404 from the auth layer). -/
  | authBlocked
deriving Repr, DecidableEq

/-- The body of the middleware's `try` block: classify the route, resolve
the identifier, consult the matching limiter.  Throws (`.error`) exactly
where `await auth.protect()` / `await auth()` throw; every throw happens
before the limiter is consulted, so the `.error` result carries no state. -/
def mwTry (path : String) (auth : AuthState) (xff xri : Option String)
    (rls : RateLimiters) (now : Int) (clean : Bool) :
    Except Unit (Option Decision × String × RateLimiters) :=
  if isAIRoute path then do
    if !(isPublicRoute path) then authProtect auth
    let userId ← getAuth auth
    let identifier := getClientIdentifier xff xri userId
    let r := isAllowed rls.ai now identifier clean
    return (some r.1, identifier, { rls with ai := r.2 })
  else if isNotesAPIRoute path then do
    if !(isPublicRoute path) then authProtect auth
    let userId ← getAuth auth
    let identifier := getClientIdentifier xff xri userId
    let r := isAllowed rls.notes now identifier clean
    return (some r.1, identifier, { rls with notes := r.2 })
  else if isAuthRoute path then
    let identifier := getClientIdentifier xff xri none
    let r := isAllowed rls.authL now identifier clean
    return (some r.1, identifier, { rls with authL := r.2 })
  else if pathStartsWith "/api/" path then do
    let userId ← getAuth auth
    let identifier := getClientIdentifier xff xri userId
    let r := isAllowed rls.api now identifier clean
    return (some r.1, identifier, { rls with api := r.2 })
  else
    return (none, "", rls)

/-- The authentication logic after the try/catch: public routes proceed,
protected routes require `auth.protect()`, everything else proceeds. -/
def mwAfterAuth (path : String) (auth : AuthState) (resp : Response) : MWOutcome :=
  if isPublicRoute path then .proceed resp
  else if isProtectedRoute path then
    match authProtect auth with
    | .ok _ => .proceed resp
    | .error _ => .authBlocked
  else .proceed resp

/-- The full `clerkMiddleware` handler at wall-clock `now` (production:
no development security headers).  A throw inside the try block is caught:
the request continues into the authentication logic with no rate-limit
enforcement and the limiter table untouched.  A denied decision returns
`createRateLimitResponse(resetTime, remaining)`.  An allowed decision
attaches `X-RateLimit-Remaining` / `X-RateLimit-Reset` when
`remaining !== undefined && resetTime` (remaining is always set; `resetTime`
is truthy unless it is `0`). -/
def middlewareHandler (path : String) (auth : AuthState) (xff xri : Option String)
    (rls : RateLimiters) (now : Int) (clean : Bool) : MWOutcome × RateLimiters :=
  match mwTry path auth xff xri rls now clean with
  | .error _ => (mwAfterAuth path auth nextResponse, rls)
  | .ok (none, _, rls') => (mwAfterAuth path auth nextResponse, rls')
  | .ok (some d, _, rls') =>
    if !d.allowed then
      (.rateLimited (createRateLimitResponse d.resetTime d.remaining now), rls')
    else
      let resp :=
        if d.resetTime ≠ 0 then addRateLimitHeaders nextResponse d.remaining d.resetTime
        else nextResponse
      (mwAfterAuth path auth resp, rls')

/-! ## Rate-limiter lemmas -/

theorem lookup_setEntry_self (s : RLState) (id : String) (e : Entry) :
    lookupEntry (setEntry s id e) id = some e := by
  induction s with
  | nil => simp [setEntry, lookupEntry]
  | cons p rest ih =>
    by_cases h : p.1 = id
    · simp [setEntry, lookupEntry, h]
    · simp [setEntry, lookupEntry, h, ih]

theorem lookup_setEntry_ne (s : RLState) (id id' : String) (e : Entry) (h : id' ≠ id) :
    lookupEntry (setEntry s id e) id' = lookupEntry s id' := by
  induction s with
  | nil => simp [setEntry, lookupEntry, Ne.symm h]
  | cons p rest ih =>
    by_cases hp : p.1 = id
    · simp [setEntry, lookupEntry, hp, Ne.symm h]
    · simp [setEntry, lookupEntry, hp, ih]

theorem lookup_filter (s : RLState) (id : String) (e : Entry) (p : String × Entry → Bool)
    (hl : lookupEntry s id = some e) (hp : p (id, e) = true) :
    lookupEntry (s.filter p) id = some e := by
  induction s with
  | nil => simp [lookupEntry] at hl
  | cons q rest ih =>
    obtain ⟨k, v⟩ := q
    by_cases hq : k = id
    · subst hq
      simp [lookupEntry] at hl
      subst hl
      simp [List.filter_cons, hp, lookupEntry]
    · simp [lookupEntry, hq] at hl
      cases hqp : p (k, v) <;>
        simp [List.filter_cons, hqp, lookupEntry, hq, ih hl]

theorem lookup_cleanup (s : RLState) (id : String) (e : Entry) (now : Int)
    (hl : lookupEntry s id = some e) (h : now ≤ e.resetTime) :
    lookupEntry (cleanup now s) id = some e := by
  apply lookup_filter s id e _ hl
  simp [cleanup]
  omega

/-- The map `isAllowed` leaves behind, before the branch-specific update. -/
def sweptMap (rl : RateLimiter) (now : Int) (doCleanup : Bool) : RLState :=
  if doCleanup then cleanup now rl.requests else rl.requests

theorem isAllowed_fresh_none (rl : RateLimiter) (now : Int) (id : String) (cl : Bool)
    (h : lookupEntry rl.requests id = none) :
    isAllowed rl now id cl =
      (⟨true, now + rl.windowMs, rl.maxRequests - 1⟩,
       { rl with requests := setEntry (sweptMap rl now cl) id ⟨1, now + rl.windowMs⟩ }) := by
  simp [isAllowed, h, sweptMap]

theorem isAllowed_fresh_expired (rl : RateLimiter) (now : Int) (id : String) (cl : Bool)
    (e : Entry) (h : lookupEntry rl.requests id = some e) (hx : now > e.resetTime) :
    isAllowed rl now id cl =
      (⟨true, now + rl.windowMs, rl.maxRequests - 1⟩,
       { rl with requests := setEntry (sweptMap rl now cl) id ⟨1, now + rl.windowMs⟩ }) := by
  simp [isAllowed, h, hx, sweptMap]

theorem isAllowed_deny (rl : RateLimiter) (now : Int) (id : String) (cl : Bool)
    (e : Entry) (h : lookupEntry rl.requests id = some e) (h1 : ¬ now > e.resetTime)
    (h2 : e.count ≥ rl.maxRequests) :
    isAllowed rl now id cl =
      (⟨false, e.resetTime, 0⟩, { rl with requests := sweptMap rl now cl }) := by
  simp [isAllowed, h, h1, h2, sweptMap]

theorem isAllowed_incr (rl : RateLimiter) (now : Int) (id : String) (cl : Bool)
    (e : Entry) (h : lookupEntry rl.requests id = some e) (h1 : ¬ now > e.resetTime)
    (h2 : ¬ e.count ≥ rl.maxRequests) :
    isAllowed rl now id cl =
      (⟨true, e.resetTime, rl.maxRequests - (e.count + 1)⟩,
       { rl with requests := setEntry (sweptMap rl now cl) id ⟨e.count + 1, e.resetTime⟩ }) := by
  simp [isAllowed, h, h1, h2, sweptMap]

theorem isAllowed_windowMs (rl : RateLimiter) (now : Int) (id : String) (cl : Bool) :
    ((isAllowed rl now id cl).2).windowMs = rl.windowMs := by
  rcases h : lookupEntry rl.requests id with _ | e
  · rw [isAllowed_fresh_none rl now id cl h]
  · by_cases hx : now > e.resetTime
    · rw [isAllowed_fresh_expired rl now id cl e h hx]
    · by_cases h2 : e.count ≥ rl.maxRequests
      · rw [isAllowed_deny rl now id cl e h hx h2]
      · rw [isAllowed_incr rl now id cl e h hx h2]

theorem isAllowed_maxRequests (rl : RateLimiter) (now : Int) (id : String) (cl : Bool) :
    ((isAllowed rl now id cl).2).maxRequests = rl.maxRequests := by
  rcases h : lookupEntry rl.requests id with _ | e
  · rw [isAllowed_fresh_none rl now id cl h]
  · by_cases hx : now > e.resetTime
    · rw [isAllowed_fresh_expired rl now id cl e h hx]
    · by_cases h2 : e.count ≥ rl.maxRequests
      · rw [isAllowed_deny rl now id cl e h hx h2]
      · rw [isAllowed_incr rl now id cl e h hx h2]

/-! ## C1: the call sequence within one window -/

/-- The limiter state after `k` calls for `identifier` at times `t 0, t 1, …`
with sweep flags `cl 0, cl 1, …`. -/
def rlSeq (rl : RateLimiter) (id : String) (t : Nat → Int) (cl : Nat → Bool) : Nat → RateLimiter
  | 0 => rl
  | k + 1 => (isAllowed (rlSeq rl id t cl k) (t k) id (cl k)).2

/-- The decision the `(k+1)`-th call returns. -/
def rlDecision (rl : RateLimiter) (id : String) (t : Nat → Int) (cl : Nat → Bool) (k : Nat) :
    Decision :=
  (isAllowed (rlSeq rl id t cl k) (t k) id (cl k)).1

theorem rlSeq_windowMs (rl : RateLimiter) (id : String) (t : Nat → Int) (cl : Nat → Bool) :
    ∀ k, (rlSeq rl id t cl k).windowMs = rl.windowMs := by
  intro k
  induction k with
  | zero => rfl
  | succ k ih => rw [rlSeq, isAllowed_windowMs, ih]

theorem rlSeq_maxRequests (rl : RateLimiter) (id : String) (t : Nat → Int) (cl : Nat → Bool) :
    ∀ k, (rlSeq rl id t cl k).maxRequests = rl.maxRequests := by
  intro k
  induction k with
  | zero => rfl
  | succ k ih => rw [rlSeq, isAllowed_maxRequests, ih]

theorem rlSeq_entry (rl : RateLimiter) (id : String) (t : Nat → Int) (cl : Nat → Bool) (N : Nat)
    (hmax : rl.maxRequests = (N : Int))
    (h0 : lookupEntry rl.requests id = none)
    (ht : ∀ k, k ≤ N → t k ≤ t 0 + rl.windowMs) :
    ∀ k, 1 ≤ k → k ≤ N →
      lookupEntry (rlSeq rl id t cl k).requests id = some ⟨(k : Int), t 0 + rl.windowMs⟩ := by
  intro k
  induction k with
  | zero => omega
  | succ k ih =>
    intro _ hk
    rcases Nat.eq_zero_or_pos k with rfl | hkpos
    · simp only [rlSeq]
      rw [isAllowed_fresh_none rl (t 0) id (cl 0) h0]
      simp [lookup_setEntry_self]
    · have hentry := ih hkpos (by omega)
      have hmaxk := rlSeq_maxRequests rl id t cl k
      have hrt : ¬ t k > t 0 + rl.windowMs := by
        have := ht k (by omega)
        omega
      have hcnt : ¬ ((⟨(k : Int), t 0 + rl.windowMs⟩ : Entry).count ≥
          (rlSeq rl id t cl k).maxRequests) := by
        rw [hmaxk, hmax]
        show ¬ ((k : Int) ≥ (N : Int))
        omega
      simp only [rlSeq]
      rw [isAllowed_incr (rlSeq rl id t cl k) (t k) id (cl k)
        ⟨(k : Int), t 0 + rl.windowMs⟩ (by rw [hentry]) hrt hcnt]
      simp only [lookup_setEntry_self, Option.some.injEq, Entry.mk.injEq]
      refine ⟨by push_cast; ring, trivial⟩

/-- C1 — For every identifier and every policy with `maxRequests = N ≥ 1`,
if `N+1` calls to the limiter for that identifier all occur within
`windowDurationMs` of the first call, the first `N` calls return
`allowed: true` with `remaining` values `N-1, N-2, …, 0` in order, the
`(N+1)`-th call returns `allowed: false` with `remaining 0` and leaves the
stored count at `N`, and the stored count is exactly `k ≤ N` after every
prefix of `k` calls, so it never exceeds `N`.  Quantified over arbitrary
sweep flags `cl` (the probabilistic cleanup). -/
theorem c1_window_admission_bound (rl : RateLimiter) (id : String) (t : Nat → Int)
    (cl : Nat → Bool) (N : Nat)
    (hmax : rl.maxRequests = (N : Int)) (hN : 1 ≤ N)
    (h0 : lookupEntry rl.requests id = none)
    (ht : ∀ k, k ≤ N → t k ≤ t 0 + rl.windowMs) :
    (∀ k, k < N → (rlDecision rl id t cl k).allowed = true ∧
        (rlDecision rl id t cl k).remaining = (N : Int) - 1 - (k : Int)) ∧
    (rlDecision rl id t cl N).allowed = false ∧
    (rlDecision rl id t cl N).remaining = 0 ∧
    (∀ k, 1 ≤ k → k ≤ N →
      lookupEntry (rlSeq rl id t cl k).requests id = some ⟨(k : Int), t 0 + rl.windowMs⟩) ∧
    lookupEntry (rlSeq rl id t cl (N + 1)).requests id =
      some ⟨(N : Int), t 0 + rl.windowMs⟩ := by
  have hinv := rlSeq_entry rl id t cl N hmax h0 ht
  have hdenyEntry := hinv N hN (le_refl N)
  have hmaxN := rlSeq_maxRequests rl id t cl N
  have hrtN : ¬ t N > t 0 + rl.windowMs := by
    have := ht N (le_refl N)
    omega
  have hcntN : (⟨(N : Int), t 0 + rl.windowMs⟩ : Entry).count ≥
      (rlSeq rl id t cl N).maxRequests := by
    rw [hmaxN, hmax]
  have hdeny := isAllowed_deny (rlSeq rl id t cl N) (t N) id (cl N)
    ⟨(N : Int), t 0 + rl.windowMs⟩ (by rw [hdenyEntry]) hrtN hcntN
  refine ⟨?_, ?_, ?_, hinv, ?_⟩
  · intro k hk
    rcases Nat.eq_zero_or_pos k with rfl | hkpos
    · simp only [rlDecision, rlSeq]
      rw [isAllowed_fresh_none rl (t 0) id (cl 0) h0]
      simp [hmax]
    · have hentry := hinv k hkpos (by omega)
      have hmaxk := rlSeq_maxRequests rl id t cl k
      have hrt : ¬ t k > t 0 + rl.windowMs := by
        have := ht k (by omega)
        omega
      have hcnt : ¬ ((⟨(k : Int), t 0 + rl.windowMs⟩ : Entry).count ≥
          (rlSeq rl id t cl k).maxRequests) := by
        rw [hmaxk, hmax]
        show ¬ ((k : Int) ≥ (N : Int))
        omega
      rw [rlDecision, isAllowed_incr (rlSeq rl id t cl k) (t k) id (cl k)
        ⟨(k : Int), t 0 + rl.windowMs⟩ (by rw [hentry]) hrt hcnt]
      refine ⟨rfl, ?_⟩
      show (rlSeq rl id t cl k).maxRequests - ((k : Int) + 1) = (N : Int) - 1 - (k : Int)
      rw [hmaxk, hmax]
      ring
  · rw [rlDecision, hdeny]
  · rw [rlDecision, hdeny]
  · rw [rlSeq, hdeny]
    show lookupEntry (sweptMap (rlSeq rl id t cl N) (t N) (cl N)) id = _
    cases hcl : cl N with
    | false => simpa [sweptMap, hcl] using hdenyEntry
    | true =>
      simp only [sweptMap, hcl, if_pos]
      exact lookup_cleanup _ id _ (t N) hdenyEntry
        (show t N ≤ t 0 + rl.windowMs by omega)

/-- Witness for C1 at the shipped AI policy: `N = 5`, six calls at `t = 0`,
no sweep; the sixth call is denied. -/
theorem c1_window_admission_bound_witness :
    ((⟨60000, 5, []⟩ : RateLimiter).maxRequests = ((5 : Nat) : Int) ∧ 1 ≤ 5 ∧
      lookupEntry (⟨60000, 5, []⟩ : RateLimiter).requests "ip:9.9.9.9" = none ∧
      (∀ k, k ≤ 5 → (fun (_ : Nat) => (0 : Int)) k ≤
        (fun (_ : Nat) => (0 : Int)) 0 + (⟨60000, 5, []⟩ : RateLimiter).windowMs)) ∧
    (rlDecision ⟨60000, 5, []⟩ "ip:9.9.9.9" (fun _ => 0) (fun _ => false) 5).allowed = false ∧
    (rlDecision ⟨60000, 5, []⟩ "ip:9.9.9.9" (fun _ => 0) (fun _ => false) 5).remaining = 0 := by
  have h := c1_window_admission_bound ⟨60000, 5, []⟩ "ip:9.9.9.9" (fun _ => 0) (fun _ => false) 5
    rfl (by norm_num) rfl (fun k _ => by norm_num)
  exact ⟨⟨rfl, by norm_num, rfl, fun k _ => by norm_num⟩, h.2.1, h.2.2.1⟩

/-! ## C3: window rollover -/

/-- C3 — A call made strictly after the stored window's `resetTime` starts a
fresh window: it returns `allowed: true`, `remaining = maxRequests - 1` and
`resetAt = now + windowDurationMs`, and stores `count = 1`, regardless of
the stored count `c` (however many requests were admitted or denied in the
previous window) and of whether the sweep runs. -/
theorem c3_window_rollover (rl : RateLimiter) (now : Int) (id : String) (cl : Bool)
    (c rt : Int) (hl : lookupEntry rl.requests id = some ⟨c, rt⟩) (hx : now > rt) :
    (isAllowed rl now id cl).1.allowed = true ∧
    (isAllowed rl now id cl).1.remaining = rl.maxRequests - 1 ∧
    (isAllowed rl now id cl).1.resetTime = now + rl.windowMs ∧
    lookupEntry ((isAllowed rl now id cl).2).requests id = some ⟨1, now + rl.windowMs⟩ := by
  rw [isAllowed_fresh_expired rl now id cl ⟨c, rt⟩ hl hx]
  exact ⟨rfl, rfl, rfl, lookup_setEntry_self _ _ _⟩

/-- Witness for C3: a window that saw five denials (`count = 5`) expires at
`resetTime = 100`; the call at `now = 101` is admitted with `remaining = 4`. -/
theorem c3_window_rollover_witness :
    (lookupEntry (⟨60000, 5, [("user:alice", ⟨5, 100⟩)]⟩ : RateLimiter).requests
        "user:alice" = some ⟨5, 100⟩ ∧ (101 : Int) > 100) ∧
    (isAllowed ⟨60000, 5, [("user:alice", ⟨5, 100⟩)]⟩ 101 "user:alice" true).1.allowed = true ∧
    (isAllowed ⟨60000, 5, [("user:alice", ⟨5, 100⟩)]⟩ 101 "user:alice" true).1.remaining = 4 := by
  have h := c3_window_rollover ⟨60000, 5, [("user:alice", ⟨5, 100⟩)]⟩ 101 "user:alice" true
    5 100 (by decide) (by decide)
  exact ⟨⟨by decide, by decide⟩, h.1, h.2.1⟩

/-! ## C10: the sweep deletes only expired entries and never changes a decision -/

/-- C10 — The opportunistic sweep (`cleanup`) deletes only entries whose
`resetTime` has passed: an entry removed by the sweep satisfies
`now > resetTime`; an identifier whose window is unexpired
(`now ≤ resetTime`) keeps its exact `count` and `resetTime`; and the
decision `isAllowed` returns is identical whether or not the sweep runs
(the entry is read before the sweep, and every branch decides from that
read alone). -/
theorem c10_cleanup_safe :
    (∀ (s : RLState) (now : Int) (p : String × Entry), p ∈ s → p ∉ cleanup now s →
      now > p.2.resetTime) ∧
    (∀ (s : RLState) (id : String) (e : Entry) (now : Int),
      lookupEntry s id = some e → now ≤ e.resetTime →
      lookupEntry (cleanup now s) id = some e) ∧
    (∀ (rl : RateLimiter) (now : Int) (id : String),
      (isAllowed rl now id true).1 = (isAllowed rl now id false).1) := by
  refine ⟨?_, ?_, ?_⟩
  · intro s now p hmem hnot
    by_contra hle
    exact hnot (List.mem_filter.mpr ⟨hmem, by simp [hle]⟩)
  · intro s id e now hl hle
    exact lookup_cleanup s id e now hl hle
  · intro rl now id
    rcases h : lookupEntry rl.requests id with _ | e
    · rw [isAllowed_fresh_none rl now id true h, isAllowed_fresh_none rl now id false h]
    · by_cases hx : now > e.resetTime
      · rw [isAllowed_fresh_expired rl now id true e h hx,
          isAllowed_fresh_expired rl now id false e h hx]
      · by_cases h2 : e.count ≥ rl.maxRequests
        · rw [isAllowed_deny rl now id true e h hx h2,
            isAllowed_deny rl now id false e h hx h2]
        · rw [isAllowed_incr rl now id true e h hx h2,
            isAllowed_incr rl now id false e h hx h2]

/-- Witness for C10: a live entry (`now = 5 ≤ resetTime = 10`) survives a
sweep untouched, and a concrete decision is sweep-independent. -/
theorem c10_cleanup_safe_witness :
    (lookupEntry [("user:alice", ⟨1, 10⟩)] "user:alice" = some ⟨1, 10⟩ ∧
      (5 : Int) ≤ (10 : Int) ∧
      lookupEntry (cleanup 5 [("user:alice", ⟨1, 10⟩)]) "user:alice" = some ⟨1, 10⟩) ∧
    (isAllowed ⟨60000, 5, [("user:alice", ⟨1, 10⟩)]⟩ 5 "user:alice" true).1 =
      (isAllowed ⟨60000, 5, [("user:alice", ⟨1, 10⟩)]⟩ 5 "user:alice" false).1 := by
  refine ⟨⟨by decide, by decide, ?_⟩, ?_⟩
  · exact c10_cleanup_safe.2.1 [("user:alice", ⟨1, 10⟩)] "user:alice" ⟨1, 10⟩ 5
      (by decide) (by decide)
  · exact c10_cleanup_safe.2.2 ⟨60000, 5, [("user:alice", ⟨1, 10⟩)]⟩ 5 "user:alice"

/-! ## C8: isolation across policies and identifiers (corrected) -/

/-- Counterexample to C8 as stated: a call for `"user:alice"` during which
the probabilistic sweep fires (`Math.random() < 0.01`) deletes the *expired*
stored entry of `"user:bob"` (`now = 100 > resetTime = 50`), so the stored
count and `resetAt` of another identifier do not always survive a call
sequence for a different identifier. -/
theorem c8_counterexample :
    lookupEntry (⟨60000, 5, [("user:bob", ⟨1, 50⟩)]⟩ : RateLimiter).requests
      "user:bob" = some ⟨1, 50⟩ ∧
    lookupEntry ((isAllowed ⟨60000, 5, [("user:bob", ⟨1, 50⟩)]⟩ 100 "user:alice" true).2).requests
      "user:bob" = none := by decide

theorem callPolicy_get_ne (rls : RateLimiters) (A B : PolicyTag) (hAB : A ≠ B)
    (now : Int) (id : String) (cl : Bool) :
    ((callPolicy rls A now id cl).2).get B = rls.get B := by
  cases A <;> cases B <;> simp_all [callPolicy, RateLimiters.get]

/-- One call for `id` leaves the entry of any *other* identifier whose
window is unexpired at call time exactly as it was. -/
theorem isAllowed_other (rl : RateLimiter) (now : Int) (id : String) (cl : Bool)
    (other : String) (e : Entry) (hne : id ≠ other)
    (hl : lookupEntry rl.requests other = some e) (hrt : now ≤ e.resetTime) :
    lookupEntry ((isAllowed rl now id cl).2).requests other = some e := by
  have hsw : lookupEntry (sweptMap rl now cl) other = some e := by
    cases cl with
    | false => simpa [sweptMap] using hl
    | true =>
      simp only [sweptMap, if_pos]
      exact lookup_cleanup _ other e now hl hrt
  rcases h : lookupEntry rl.requests id with _ | e'
  · rw [isAllowed_fresh_none rl now id cl h]
    rw [lookup_setEntry_ne _ _ _ _ (Ne.symm hne)]
    exact hsw
  · by_cases hx : now > e'.resetTime
    · rw [isAllowed_fresh_expired rl now id cl e' h hx]
      rw [lookup_setEntry_ne _ _ _ _ (Ne.symm hne)]
      exact hsw
    · by_cases h2 : e'.count ≥ rl.maxRequests
      · rw [isAllowed_deny rl now id cl e' h hx h2]
        exact hsw
      · rw [isAllowed_incr rl now id cl e' h hx h2]
        rw [lookup_setEntry_ne _ _ _ _ (Ne.symm hne)]
        exact hsw

/-- C8 (amended) — Isolation, as the code actually guarantees it: (a) any
call sequence against one policy's limiter leaves every other policy's
limiter (map included) unchanged — each policy owns a separate
`RateLimiter` instance; (b) within one policy, any call sequence whose
identifiers all differ from `other` leaves `other`'s stored `count` and
`resetAt` unchanged *provided `other`'s window is unexpired at each call
time* — an expired entry may be deleted by the opportunistic sweep (see the
counterexample), which never changes a later decision for `other`. -/
theorem c8_isolation_amended :
    (∀ (A B : PolicyTag), A ≠ B → ∀ (calls : List (Int × String × Bool)) (rls : RateLimiters),
      (runCallsPolicy A calls rls).get B = rls.get B) ∧
    (∀ (calls : List (Int × String × Bool)) (rl : RateLimiter) (other : String) (e : Entry),
      (∀ c ∈ calls, c.2.1 ≠ other ∧ c.1 ≤ e.resetTime) →
      lookupEntry rl.requests other = some e →
      lookupEntry (runCalls calls rl).requests other = some e) := by
  constructor
  · intro A B hAB calls
    induction calls with
    | nil => intro rls; rfl
    | cons c rest ih =>
      intro rls
      obtain ⟨now, id, cl⟩ := c
      rw [runCallsPolicy, ih, callPolicy_get_ne rls A B hAB]
  · intro calls
    induction calls with
    | nil => intro rl other e _ hl; exact hl
    | cons c rest ih =>
      intro rl other e hc hl
      obtain ⟨now, id, cl⟩ := c
      rw [runCalls]
      exact ih _ other e (fun d hd => hc d (List.mem_cons_of_mem _ hd))
        (isAllowed_other rl now id cl other e
          (hc (now, id, cl) (List.mem_cons_self _ _)).1 hl
          (hc (now, id, cl) (List.mem_cons_self _ _)).2)

/-- Witness for C8 (amended): a call for `"user:alice"` under the `ai`
policy leaves the `api` policy's limiter untouched, and leaves
`"user:bob"`'s live entry untouched. -/
theorem c8_isolation_amended_witness :
    (PolicyTag.ai ≠ PolicyTag.api ∧
      (runCallsPolicy .ai [(0, "user:alice", true)] rateLimitersInit).get .api =
        rateLimitersInit.get .api) ∧
    ((∀ c ∈ [((5 : Int), "user:alice", true)], c.2.1 ≠ "user:bob" ∧
        c.1 ≤ (⟨2, 10⟩ : Entry).resetTime) ∧
      lookupEntry (⟨60000, 5, [("user:bob", ⟨2, 10⟩)]⟩ : RateLimiter).requests
        "user:bob" = some ⟨2, 10⟩ ∧
      lookupEntry (runCalls [(5, "user:alice", true)]
        ⟨60000, 5, [("user:bob", ⟨2, 10⟩)]⟩).requests "user:bob" = some ⟨2, 10⟩) := by
  refine ⟨⟨by decide, c8_isolation_amended.1 .ai .api (by decide) _ _⟩,
    ⟨by decide, by decide, ?_⟩⟩
  exact c8_isolation_amended.2 [(5, "user:alice", true)] ⟨60000, 5, [("user:bob", ⟨2, 10⟩)]⟩
    "user:bob" ⟨2, 10⟩ (by decide) (by decide)

/-! ## Digit and split lemmas for header parsing -/

theorem isDigitChar_digitChar (n : Nat) (h : n < 10) :
    isDigitChar (digitChar n) = true := by
  interval_cases n <;> decide

theorem natDigitsAux_digits : ∀ fuel n, ∀ c ∈ natDigitsAux fuel n, isDigitChar c = true := by
  intro fuel
  induction fuel with
  | zero => intro n c hc; simp [natDigitsAux] at hc
  | succ fuel ih =>
    intro n c hc
    rw [natDigitsAux] at hc
    by_cases h : n < 10
    · rw [if_pos h] at hc
      simp at hc
      subst hc
      exact isDigitChar_digitChar n h
    · rw [if_neg h] at hc
      rcases List.mem_append.mp hc with h1 | h1
      · exact ih _ c h1
      · simp at h1
        subst h1
        exact isDigitChar_digitChar _ (Nat.mod_lt _ (by norm_num))

theorem natDigits_digits (n : Nat) : ∀ c ∈ natDigits n, isDigitChar c = true :=
  natDigitsAux_digits (n + 1) n

theorem natDigits_ne_nil (n : Nat) : natDigits n ≠ [] := by
  rw [natDigits, natDigitsAux]
  by_cases h : n < 10
  · simp [h]
  · simp [h]

theorem digit_beq_comma (c : Char) (h : isDigitChar c = true) : (c == ',') = false := by
  rw [beq_eq_false_iff_ne]
  rintro rfl
  simp [isDigitChar] at h

theorem digit_not_ws (c : Char) (h : isDigitChar c = true) : isJsWhitespace c = false := by
  simp only [isDigitChar, Bool.and_eq_true, decide_eq_true_eq] at h
  simp only [isJsWhitespace, Bool.or_eq_false_iff]
  refine ⟨⟨⟨?_, ?_⟩, ?_⟩, ?_⟩ <;>
    · rw [beq_eq_false_iff_ne]
      rintro rfl
      simp at h

theorem digit_ne_dash (c : Char) (h : isDigitChar c = true) : (c == '-') = false := by
  rw [beq_eq_false_iff_ne]
  rintro rfl
  simp [isDigitChar] at h

theorem digit_ne_plus (c : Char) (h : isDigitChar c = true) : (c == '+') = false := by
  rw [beq_eq_false_iff_ne]
  rintro rfl
  simp [isDigitChar] at h

theorem splitChar_no_sep (c : Char) :
    ∀ l : List Char, (∀ x ∈ l, (x == c) = false) → splitChar c l = [l] := by
  intro l
  induction l with
  | nil => intro _; rfl
  | cons x xs ih =>
    intro h
    rw [splitChar, if_neg (by simp [h x (List.mem_cons_self _ _)]),
      ih (fun y hy => h y (List.mem_cons_of_mem _ hy))]

theorem splitChar_append (c : Char) (l₁ l₂ : List Char)
    (h : ∀ x ∈ l₁, (x == c) = false) :
    splitChar c (l₁ ++ c :: l₂) = l₁ :: splitChar c l₂ := by
  induction l₁ with
  | nil => simp [splitChar]
  | cons x xs ih =>
    rw [List.cons_append, splitChar,
      if_neg (by simp [h x (List.mem_cons_self _ _)]),
      ih (fun y hy => h y (List.mem_cons_of_mem _ hy))]

/-! ## Hex lemmas -/

theorem hexDigitChar_beq_comma (n : Nat) : (hexDigitChar n == ',') = false := by
  rcases n with _|_|_|_|_|_|_|_|_|_|_|_|_|_|_|n <;> first | decide | rfl

theorem hexEncode_beq_comma (bs : List Nat) :
    ∀ c ∈ hexEncode bs, (c == ',') = false := by
  induction bs with
  | nil => intro c hc; simp [hexEncode] at hc
  | cons b rest ih =>
    intro c hc
    simp only [hexEncode, List.map_cons, List.flatten_cons, List.mem_append] at hc
    rcases hc with hc | hc
    · simp only [hexByte, List.mem_cons] at hc
      rcases hc with rfl | rfl | hc
      · exact hexDigitChar_beq_comma _
      · exact hexDigitChar_beq_comma _
      · simp at hc
    · exact ih c hc

theorem hexEncode_length (bs : List Nat) : (hexEncode bs).length = 2 * bs.length := by
  induction bs with
  | nil => rfl
  | cons b rest ih =>
    simp only [hexEncode, List.map_cons, List.flatten_cons, List.length_append,
      List.length_cons] at *
    simp [hexByte, ih]
    omega

theorem hexVal_hexDigitChar (n : Nat) (h : n < 16) :
    hexVal (hexDigitChar n) = some n := by
  interval_cases n <;> decide

theorem hexDecode_hexEncode (bs : List Nat) (h : ∀ b ∈ bs, b < 256) :
    hexDecode (hexEncode bs) = bs := by
  induction bs with
  | nil => rfl
  | cons b rest ih =>
    have hb : b < 256 := h b (List.mem_cons_self _ _)
    have h1 : b / 16 < 16 := by omega
    have h2 : b % 16 < 16 := by omega
    simp only [hexEncode, List.map_cons, List.flatten_cons, hexByte, List.cons_append,
      List.nil_append]
    rw [hexDecode, hexVal_hexDigitChar _ h1, hexVal_hexDigitChar _ h2]
    have hrest : hexEncode rest = (List.map hexByte rest).flatten := rfl
    rw [← hrest, ih (fun x hx => h x (List.mem_cons_of_mem _ hx))]
    have hb16 : 16 * (b / 16) + b % 16 = b := by omega
    show (16 * (b / 16) + b % 16) :: rest = b :: rest
    rw [hb16]

theorem sha256_length (msg : List Nat) : (sha256 msg).length = 32 := by
  simp [sha256, wordBytes]

theorem sha256_lt256 (msg : List Nat) : ∀ b ∈ sha256 msg, b < 256 := by
  intro b hb
  simp only [sha256, wordBytes, List.mem_append, List.mem_cons, List.not_mem_nil,
    or_false] at hb
  rcases hb with ((h|h|h|h)|(h|h|h|h))|((h|h|h|h)|(h|h|h|h))|((h|h|h|h)|(h|h|h|h))|
    ((h|h|h|h)|(h|h|h|h)) <;> omega

theorem hmacSha256_length (key msg : List Nat) : (hmacSha256 key msg).length = 32 := by
  rw [hmacSha256]
  exact sha256_length _

theorem hmacSha256_lt256 (key msg : List Nat) : ∀ b ∈ hmacSha256 key msg, b < 256 := by
  rw [hmacSha256]
  exact sha256_lt256 _

/-! ## Decimal printing parses back (for C6) -/

theorem digitChar_toNat (n : Nat) (h : n < 10) : (digitChar n).toNat = 48 + n := by
  interval_cases n <;> decide

theorem parseDigitsAux_append (l₁ l₂ : List Char) (h : ∀ c ∈ l₁, isDigitChar c = true) :
    ∀ acc, parseDigitsAux (l₁ ++ l₂) acc = parseDigitsAux l₂ (parseDigitsAux l₁ acc) := by
  induction l₁ with
  | nil => intro acc; rfl
  | cons c cs ih =>
    intro acc
    rw [List.cons_append, parseDigitsAux, parseDigitsAux,
      if_pos (h c (List.mem_cons_self _ _)), if_pos (h c (List.mem_cons_self _ _)),
      ih (fun x hx => h x (List.mem_cons_of_mem _ hx))]

theorem parseDigitsAux_natDigitsAux :
    ∀ fuel n, n < fuel → ∀ acc,
      parseDigitsAux (natDigitsAux fuel n) acc =
        acc * 10 ^ (natDigitsAux fuel n).length + n := by
  intro fuel
  induction fuel with
  | zero => omega
  | succ fuel ih =>
    intro n hn acc
    rw [natDigitsAux]
    by_cases h : n < 10
    · rw [if_pos h, parseDigitsAux, if_pos (isDigitChar_digitChar n h), parseDigitsAux,
        digitChar_toNat n h]
      simp only [List.length_cons, List.length_nil, zero_add, pow_one]
      omega
    · rw [if_neg h]
      have hdiv : n / 10 < fuel := by omega
      rw [parseDigitsAux_append _ _ (natDigitsAux_digits fuel (n / 10)), ih _ hdiv,
        parseDigitsAux, if_pos (isDigitChar_digitChar _ (Nat.mod_lt _ (by norm_num))),
        parseDigitsAux, digitChar_toNat _ (Nat.mod_lt _ (by norm_num))]
      have hdm : 10 * (n / 10) + n % 10 = n := Nat.div_add_mod n 10
      have hlen : (natDigitsAux fuel (n / 10) ++ [digitChar (n % 10)]).length =
          (natDigitsAux fuel (n / 10)).length + 1 := by simp
      rw [hlen]
      have : (acc * 10 ^ (natDigitsAux fuel (n / 10)).length + n / 10) * 10 +
          (48 + n % 10 - 48) =
          acc * 10 ^ ((natDigitsAux fuel (n / 10)).length + 1) +
            (10 * (n / 10) + (48 + n % 10 - 48)) := by ring
      rw [this]
      omega

theorem parseDigits_natDigits (n : Nat) : parseDigits (natDigits n) = some n := by
  obtain ⟨c, cs, hd⟩ : ∃ c cs, natDigits n = c :: cs := by
    cases h : natDigits n with
    | nil => exact absurd h (natDigits_ne_nil n)
    | cons c cs => exact ⟨c, cs, rfl⟩
  have hdig : isDigitChar c = true := by
    apply natDigits_digits n
    rw [hd]
    exact List.mem_cons_self _ _
  have hval := parseDigitsAux_natDigitsAux (n + 1) n (Nat.lt_succ_self n) 0
  rw [hd]
  show (if isDigitChar c then some (parseDigitsAux (c :: cs) 0) else none) = some n
  rw [if_pos hdig, ← hd, show natDigits n = natDigitsAux (n + 1) n from rfl, hval]
  simp

theorem parseIntJS_natDigits (n : Nat) : parseIntJS (natDigits n) = some (n : Int) := by
  obtain ⟨c, cs, hd⟩ : ∃ c cs, natDigits n = c :: cs := by
    cases h : natDigits n with
    | nil => exact absurd h (natDigits_ne_nil n)
    | cons c cs => exact ⟨c, cs, rfl⟩
  have hdig : isDigitChar c = true := by
    apply natDigits_digits n
    rw [hd]
    exact List.mem_cons_self _ _
  rw [parseIntJS, hd]
  rw [List.dropWhile_cons, digit_not_ws c hdig]
  simp only [Bool.false_eq_true, if_false]
  rw [digit_ne_dash c hdig]
  simp only [Bool.false_eq_true, if_false]
  rw [digit_ne_plus c hdig]
  simp only [Bool.false_eq_true, if_false]
  rw [← hd, parseDigits_natDigits]
  rfl

/-! ## C6: timestamp tolerance boundary -/

/-- A signature header carrying only a timestamp field, `t=<n>`. -/
def mkTsHeader (t : Nat) : String := "t=" ++ natToStr t

theorem mkTsHeader_data (t : Nat) : (mkTsHeader t).data = 't' :: '=' :: natDigits t := by
  simp [mkTsHeader, natToStr, String.data_append]

/-- Evaluating `isWebhookTimestampValid` on a well-formed header: the result
is exactly the inclusive comparison `|now - t| <= tolerance`. -/
theorem isValid_mkTsHeader (t : Nat) (tol now : Int) :
    isWebhookTimestampValid (mkTsHeader t) tol now =
      decide (((now - (t : Int)).natAbs : Int) ≤ tol) := by
  have hsplit : splitChar ',' (mkTsHeader t).data = [('t' :: '=' :: natDigits t)] := by
    rw [mkTsHeader_data]
    apply splitChar_no_sep
    intro x hx
    simp only [List.mem_cons] at hx
    rcases hx with rfl | rfl | hx
    · decide
    · decide
    · exact digit_beq_comma x (natDigits_digits t x hx)
  have hstarts : strStartsWith ('t' :: '=' :: natDigits t) ['t', '='] = true := by
    simp [strStartsWith]
  have hfind : List.find? (fun p => strStartsWith p ['t', '='])
      [('t' :: '=' :: natDigits t)] = some ('t' :: '=' :: natDigits t) := by
    rw [List.find?_cons_of_pos]
    exact hstarts
  rw [isWebhookTimestampValid, hsplit, hfind]
  simp only [List.drop_succ_cons, List.drop_zero, parseIntJS_natDigits]

/-- C6 — With the default tolerance of 300 seconds, a header whose timestamp
is `now - 300` is fresh and one whose timestamp is `now - 301` is stale: the
boundary is inclusive at exactly `toleranceSeconds`, and in general the
check computes `|nowSeconds - timestamp| <= toleranceSeconds`. -/
theorem c6_timestamp_tolerance_boundary (now : Nat) (h : 301 ≤ now) :
    isWebhookTimestampValid (mkTsHeader (now - 300)) 300 (now : Int) = true ∧
    isWebhookTimestampValid (mkTsHeader (now - 301)) 300 (now : Int) = false ∧
    (∀ (t : Nat) (tol : Int),
      isWebhookTimestampValid (mkTsHeader t) tol (now : Int) =
        decide ((((now : Int) - (t : Int)).natAbs : Int) ≤ tol)) := by
  refine ⟨?_, ?_, fun t tol => isValid_mkTsHeader t tol (now : Int)⟩
  · rw [isValid_mkTsHeader]
    have h1 : ((now - 300 : Nat) : Int) = (now : Int) - 300 := by omega
    rw [h1]
    simp only [decide_eq_true_eq]
    omega
  · rw [isValid_mkTsHeader]
    have h1 : ((now - 301 : Nat) : Int) = (now : Int) - 301 := by omega
    rw [h1]
    simp only [decide_eq_false_iff_not]
    omega

/-- Witness for C6 at `now = 1000`: `t=700` is fresh, `t=699` is stale. -/
theorem c6_timestamp_tolerance_boundary_witness :
    (301 ≤ 1000) ∧
    isWebhookTimestampValid (mkTsHeader (1000 - 300)) 300 ((1000 : Nat) : Int) = true ∧
    isWebhookTimestampValid (mkTsHeader (1000 - 301)) 300 ((1000 : Nat) : Int) = false := by
  have h := c6_timestamp_tolerance_boundary 1000 (by norm_num)
  exact ⟨by norm_num, h.1, h.2.1⟩

/-! ## C7: malformed headers (corrected) -/

/-- Counterexample to C7 as stated: the header `"t=0"` has no `v1=` segment,
yet `isWebhookTimestampValid` returns `true` at `now = 0` — the freshness
check never looks at `v1=`, so "missing `v1=` makes `isTimestampFresh`
return `false`" fails. -/
theorem c7_counterexample :
    List.find? (fun p => strStartsWith p ['v', '1', '='])
      (splitChar ',' ("t=0" : String).data) = none ∧
    isWebhookTimestampValid "t=0" 300 0 = true := by decide

/-- C7 (amended) — A header with no `v1=` segment makes `verifySignature`
return `false`; a header with no `t=` segment makes both `verifySignature`
and `isTimestampFresh` return `false`.  (Both embedded functions are total,
mirroring the source's catch-all `try/catch`: no input throws.) -/
theorem c7_missing_segment_amended (body secret header : String) (tol nowSec : Int) :
    ((∀ p ∈ splitChar ',' header.data, strStartsWith p ['v', '1', '='] = false) →
      verifyClerkWebhook body (some header) secret = false) ∧
    ((∀ p ∈ splitChar ',' header.data, strStartsWith p ['t', '='] = false) →
      verifyClerkWebhook body (some header) secret = false ∧
      isWebhookTimestampValid header tol nowSec = false) := by
  constructor
  · intro hv
    rw [verifyClerkWebhook]
    by_cases h0 : (jsFalsyStr (some header) || (secret == "")) = true
    · rw [if_pos h0]
    · rw [if_neg h0]
      have hv1 : List.find? (fun p => strStartsWith p ['v', '1', '='])
          (splitChar ',' header.data) = none :=
        List.find?_eq_none.mpr (by intro x hx; simp [hv x hx])
      rcases htt : List.find? (fun p => strStartsWith p ['t', '='])
          (splitChar ',' header.data) with _ | tp <;>
        simp [htt, hv1]
  · intro ht
    have htn : List.find? (fun p => strStartsWith p ['t', '='])
        (splitChar ',' header.data) = none :=
      List.find?_eq_none.mpr (by intro x hx; simp [ht x hx])
    constructor
    · rw [verifyClerkWebhook]
      by_cases h0 : (jsFalsyStr (some header) || (secret == "")) = true
      · rw [if_pos h0]
      · rw [if_neg h0]
        simp [htn]
    · rw [isWebhookTimestampValid, htn]

/-- Witness for C7 (amended): the `v1`-less header `"t=5"` fails
verification; the `t`-less header `"v1=ab"` fails both checks. -/
theorem c7_missing_segment_amended_witness :
    ((∀ p ∈ splitChar ',' ("t=5" : String).data, strStartsWith p ['v', '1', '='] = false) ∧
      verifyClerkWebhook "body" (some "t=5") "sec" = false) ∧
    ((∀ p ∈ splitChar ',' ("v1=ab" : String).data, strStartsWith p ['t', '='] = false) ∧
      verifyClerkWebhook "body" (some "v1=ab") "sec" = false ∧
      isWebhookTimestampValid "v1=ab" 300 0 = false) := by
  refine ⟨⟨by decide, (c7_missing_segment_amended "body" "sec" "t=5" 300 0).1 (by decide)⟩,
    ⟨by decide, (c7_missing_segment_amended "body" "sec" "v1=ab" 300 0).2 (by decide)⟩⟩

/-! ## C2: signature round-trip (corrected) -/

theorem list_ne_nil_isEmpty (l : List Char) (h : l ≠ []) : l.isEmpty = false := by
  cases l with
  | nil => exact absurd rfl h
  | cons c cs => rfl

theorem buildHeader_data (secret body : String) (ts : Nat) :
    (buildSignatureHeader secret body ts).data =
      ('t' :: '=' :: natDigits ts) ++ ',' :: 'v' :: '1' :: '=' ::
        hexEncode (hmacSha256 (strBytes secret)
          (strBytesL (natDigits ts ++ '.' :: body.data))) := by
  rw [buildSignatureHeader, String.data_append, String.data_append, String.data_append]
  show ['t', '='] ++ natDigits ts ++ [',', 'v', '1', '='] ++
    hexEncode (hmacSha256 (strBytes secret)
      (strBytesL (natDigits ts ++ '.' :: body.data))) = _
  simp

theorem buildHeader_split (secret body : String) (ts : Nat) :
    splitChar ',' (buildSignatureHeader secret body ts).data =
      [('t' :: '=' :: natDigits ts),
       ('v' :: '1' :: '=' :: hexEncode (hmacSha256 (strBytes secret)
          (strBytesL (natDigits ts ++ '.' :: body.data))))] := by
  rw [buildHeader_data, splitChar_append, splitChar_no_sep]
  · intro x hx
    simp only [List.mem_cons] at hx
    rcases hx with rfl | rfl | rfl | hx
    · decide
    · decide
    · decide
    · exact hexEncode_beq_comma _ x hx
  · intro x hx
    simp only [List.mem_cons] at hx
    rcases hx with rfl | rfl | hx
    · decide
    · decide
    · exact digit_beq_comma x (natDigits_digits ts x hx)

/-- Evaluating `verifyClerkWebhook` on a header built by the spec's
construction: with a truthy secret, the result is exactly whether the
header's digest (over `body`) equals the digest recomputed over the
presented `payload`. -/
theorem verify_buildHeader_eval (secret body payload : String) (ts : Nat)
    (hs : secret ≠ "") :
    verifyClerkWebhook payload (some (buildSignatureHeader secret body ts)) secret =
      (hmacSha256 (strBytes secret) (strBytesL (natDigits ts ++ '.' :: body.data)) ==
        hmacSha256 (strBytes secret) (strBytesL (natDigits ts ++ '.' :: payload.data))) := by
  have hne : buildSignatureHeader secret body ts ≠ "" := by
    intro hcontra
    have hdata := congrArg String.data hcontra
    rw [buildHeader_data] at hdata
    simp at hdata
  have hcond : (jsFalsyStr (some (buildSignatureHeader secret body ts)) ||
      (secret == "")) = false := by
    simp only [jsFalsyStr, Bool.or_eq_false_iff, beq_eq_false_iff_ne]
    exact ⟨hne, hs⟩
  have hstartsT : strStartsWith ('t' :: '=' :: natDigits ts) ['t', '='] = true := by
    simp [strStartsWith]
  have hstartsTV : strStartsWith ('t' :: '=' :: natDigits ts) ['v', '1', '='] = false := by
    simp [strStartsWith]
  have hstartsV : strStartsWith ('v' :: '1' :: '=' ::
      hexEncode (hmacSha256 (strBytes secret)
        (strBytesL (natDigits ts ++ '.' :: body.data)))) ['v', '1', '='] = true := by
    simp [strStartsWith]
  have hfT : List.find? (fun p => strStartsWith p ['t', '='])
      (splitChar ',' (buildSignatureHeader secret body ts).data) =
      some ('t' :: '=' :: natDigits ts) := by
    rw [buildHeader_split, List.find?_cons_of_pos]
    exact hstartsT
  have hfV : List.find? (fun p => strStartsWith p ['v', '1', '='])
      (splitChar ',' (buildSignatureHeader secret body ts).data) =
      some ('v' :: '1' :: '=' :: hexEncode (hmacSha256 (strBytes secret)
        (strBytesL (natDigits ts ++ '.' :: body.data)))) := by
    rw [buildHeader_split, List.find?_cons_of_neg, List.find?_cons_of_pos]
    · exact hstartsV
    · simp [hstartsTV]
  have hhexne : hexEncode (hmacSha256 (strBytes secret)
      (strBytesL (natDigits ts ++ '.' :: body.data))) ≠ [] := by
    intro hcontra
    have := congrArg List.length hcontra
    rw [hexEncode_length, hmacSha256_length] at this
    simp at this
  rw [verifyClerkWebhook, if_neg (by simp [hcond])]
  simp only [Option.getD_some, hfT, hfV, Option.map_some', List.drop_succ_cons,
    List.drop_zero]
  rw [if_neg (by
    simp [list_ne_nil_isEmpty _ (natDigits_ne_nil ts), list_ne_nil_isEmpty _ hhexne])]
  rw [hexDecode_hexEncode _ (hmacSha256_lt256 _ _), hexDecode_hexEncode _ (hmacSha256_lt256 _ _)]
  rw [if_neg (by simp [hmacSha256_length])]

/-- Counterexample to C2 as stated: with the empty secret `""` (falsy in
JS), `verifyClerkWebhook` rejects even a correctly constructed header — the
guard `if (!signature || !secret) return false` fires before any
cryptography, so "for every secret … the header verifies as valid" fails at
`secret = ""`. -/
theorem c2_counterexample :
    verifyClerkWebhook "x" (some (buildSignatureHeader "" "x" 0)) "" = false := by
  have hc : (jsFalsyStr (some (buildSignatureHeader "" "x" 0)) ||
      (("" : String) == "")) = true := by
    simp
  rw [verifyClerkWebhook, if_pos hc]

/-- C2 (amended) — For every *nonempty* secret, rawBody and timestamp, the
header `t=<timestamp>,v1=<hex(HMAC-SHA256(secret, timestamp + "." +
rawBody))>` verifies as valid; and any change to `rawBody` (in particular
any single-character change) whose HMAC digest differs from the original
makes verification of the same header return `false`.  (The digest
hypothesis is what separates a genuine flip from a SHA-256 collision; no
theorem can decide collision-freeness.) -/
theorem c2_signature_roundtrip_amended (secret body : String) (ts : Nat)
    (hs : secret ≠ "") :
    verifyClerkWebhook body (some (buildSignatureHeader secret body ts)) secret = true ∧
    (∀ body' : String, singleCharChange body body' →
      hmacSha256 (strBytes secret) (strBytesL (natDigits ts ++ '.' :: body'.data)) ≠
        hmacSha256 (strBytes secret) (strBytesL (natDigits ts ++ '.' :: body.data)) →
      verifyClerkWebhook body' (some (buildSignatureHeader secret body ts)) secret = false) := by
  constructor
  · rw [verify_buildHeader_eval secret body body ts hs]
    exact beq_self_eq_true _
  · intro body' hchange hd
    rw [verify_buildHeader_eval secret body body' ts hs]
    exact beq_eq_false_iff_ne.mpr (Ne.symm hd)

set_option maxRecDepth 1000000 in
/-- Witness for C2 (amended): secret `"k"`, body `"ab"`, timestamp `5`; the
built header verifies, and the single-character change to `"aa"` (whose
digest concretely differs) is rejected.  The digest inequality is
discharged by kernel evaluation of both HMAC-SHA256 computations. -/
theorem c2_signature_roundtrip_amended_witness :
    (("k" : String) ≠ "" ∧
      verifyClerkWebhook "ab" (some (buildSignatureHeader "k" "ab" 5)) "k" = true) ∧
    (singleCharChange "ab" "aa" ∧
      verifyClerkWebhook "aa" (some (buildSignatureHeader "k" "ab" 5)) "k" = false) := by
  have h := c2_signature_roundtrip_amended "k" "ab" 5 (by decide)
  refine ⟨⟨by decide, h.1⟩, ⟨⟨['a'], 'b', 'a', [], by decide, rfl, rfl⟩, ?_⟩⟩
  exact h.2 "aa" ⟨['a'], 'b', 'a', [], by decide, rfl, rfl⟩ (by decide)

/-! ## C5: missing webhook secret (corrected) -/

/-- Counterexample to C5 as stated: with the secret absent, a request that
also lacks the `clerk-signature` header is rejected with the 401
`Missing signature` response — the authentication-style rejection, not the
500 configuration error — because the handler checks the signature header
before the secret.  So "the rejection is a configuration error" does not
hold for every inbound request. -/
theorem c5_counterexample :
    clerkWebhookPOST none none "x" 0 = .missingSignature ∧
    webhookStatus .missingSignature = 401 ∧
    webhookStatus .notConfigured = 500 := by decide

/-- C5 (amended) — With the webhook secret absent, every inbound webhook
request is rejected (none reaches processing); every request that carries a
(non-empty) signature header is rejected with the `Webhook not configured`
configuration error, HTTP 500, distinct from the 401 authentication-failure
rejections; a request without a signature header is rejected with the 401
missing-signature error, which precedes the configuration check. -/
theorem c5_missing_secret_amended (signature : Option String) (body : String)
    (nowSec : Int) :
    clerkWebhookPOST signature none body nowSec ≠ .processed ∧
    (∀ s, signature = some s → s ≠ "" →
      clerkWebhookPOST signature none body nowSec = .notConfigured) ∧
    (signature = none →
      clerkWebhookPOST signature none body nowSec = .missingSignature) ∧
    webhookStatus .notConfigured = 500 ∧
    webhookStatus .missingSignature = 401 ∧
    webhookStatus .invalidTimestamp = 401 ∧
    webhookStatus .invalidSignature = 401 := by
  refine ⟨?_, ?_, ?_, rfl, rfl, rfl, rfl⟩
  · rw [clerkWebhookPOST]
    by_cases h : jsFalsyStr signature = true
    · rw [if_pos h]
      intro hcontra
      cases hcontra
    · rw [if_neg h, if_pos (show jsFalsyStr none = true from rfl)]
      intro hcontra
      cases hcontra
  · rintro s rfl hs
    rw [clerkWebhookPOST,
      if_neg (by simp [jsFalsyStr, hs]),
      if_pos (show jsFalsyStr none = true from rfl)]
  · rintro rfl
    rfl

/-- Witness for C5 (amended): a request carrying the header `"t=1,v1=aa"`
while the secret is unset is rejected with the configuration error. -/
theorem c5_missing_secret_amended_witness :
    (some ("t=1,v1=aa" : String) = some "t=1,v1=aa" ∧ ("t=1,v1=aa" : String) ≠ "") ∧
    clerkWebhookPOST (some "t=1,v1=aa") none "x" 0 ≠ .processed ∧
    clerkWebhookPOST (some "t=1,v1=aa") none "x" 0 = .notConfigured := by
  have h := c5_missing_secret_amended (some "t=1,v1=aa") "x" 0
  exact ⟨⟨rfl, by decide⟩, h.1, h.2.1 "t=1,v1=aa" rfl (by decide)⟩

/-! ## C4: identity-resolution failure in the dispatcher (corrected) -/

/-- A limiter table whose general-API limiter has exhausted the quota of
`"ip:1.2.3.4"` for the current window. -/
def c4state : RateLimiters :=
  { rateLimitersInit with api := ⟨60000, 100, [("ip:1.2.3.4", ⟨100, 60000⟩)]⟩ }

/-- Counterexample to C4 as stated: on the rate-limited general-API route
`"/api/hello"`, with the authentication collaborator throwing, the
middleware's `catch` swallows the error and the request simply proceeds —
the limiter table is untouched and no 429 is produced, even though the
IP-based identifier `"ip:1.2.3.4"` has exhausted its quota and IP-based
enforcement would have rejected it.  So the dispatcher does *not* fall back
to IP-based identification and enforce; it skips enforcement entirely. -/
theorem c4_counterexample :
    getClientIdentifier (some "1.2.3.4") none none = "ip:1.2.3.4" ∧
    (isAllowed c4state.api 10 "ip:1.2.3.4" false).1.allowed = false ∧
    middlewareHandler "/api/hello" .throwsAuth (some "1.2.3.4") none c4state 10 false =
      (.proceed nextResponse, c4state) := by decide

/-- C4 (amended) — On a rate-limited general-API route: (a) if the
authentication collaborator *throws* while resolving the actor id, the
dispatcher does not fail the request — the error is caught and the request
continues into the authentication phase — but rate-limit enforcement is
skipped for that call (no IP fallback on exception, limiter state
untouched); (b) if the collaborator resolves successfully with *no* actor
id, the dispatcher falls back to IP-based identification and performs
enforcement as usual: a denied decision yields the 429 rejection, an
allowed one proceeds with the rate-limit headers. -/
theorem c4_identity_failure_amended (path : String) (xff xri : Option String)
    (rls : RateLimiters) (now : Int) (clean : Bool)
    (hai : isAIRoute path = false) (hnotes : isNotesAPIRoute path = false)
    (hauth : isAuthRoute path = false) (hapi : pathStartsWith "/api/" path = true)
    (hpub : isPublicRoute path = false) (hprot : isProtectedRoute path = false) :
    middlewareHandler path .throwsAuth xff xri rls now clean =
      (.proceed nextResponse, rls) ∧
    (∀ d rl', isAllowed rls.api now (getClientIdentifier xff xri none) clean = (d, rl') →
      middlewareHandler path (.okAuth none) xff xri rls now clean =
        if !d.allowed then
          (.rateLimited (createRateLimitResponse d.resetTime d.remaining now),
            { rls with api := rl' })
        else
          (.proceed (if d.resetTime ≠ 0 then
              addRateLimitHeaders nextResponse d.remaining d.resetTime
            else nextResponse), { rls with api := rl' })) := by
  have hmw1 : mwTry path .throwsAuth xff xri rls now clean = .error () := by
    rw [mwTry, if_neg (by simp [hai]), if_neg (by simp [hnotes]),
      if_neg (by simp [hauth]), if_pos (by simp [hapi])]
    rfl
  have hmw2 : mwTry path (.okAuth none) xff xri rls now clean =
      .ok (some (isAllowed rls.api now (getClientIdentifier xff xri none) clean).1,
        getClientIdentifier xff xri none,
        { rls with api := (isAllowed rls.api now (getClientIdentifier xff xri none) clean).2 }) := by
    rw [mwTry, if_neg (by simp [hai]), if_neg (by simp [hnotes]),
      if_neg (by simp [hauth]), if_pos (by simp [hapi])]
    rfl
  constructor
  · rw [middlewareHandler, hmw1]
    show (mwAfterAuth path .throwsAuth nextResponse, rls) = (.proceed nextResponse, rls)
    rw [mwAfterAuth, if_neg (by simp [hpub]), if_neg (by simp [hprot])]
  · intro d rl' hr
    simp only [middlewareHandler, hmw2, hr]
    by_cases hall : d.allowed <;>
      simp [hall, mwAfterAuth, hpub, hprot]

/-- Witness for C4 (amended): path `"/api/hello"` with forwarded IP
`"1.2.3.4"` and a fresh limiter table; the collaborator's throw is caught
and the request proceeds with the table untouched. -/
theorem c4_identity_failure_amended_witness :
    (isAIRoute "/api/hello" = false ∧ isNotesAPIRoute "/api/hello" = false ∧
      isAuthRoute "/api/hello" = false ∧ pathStartsWith "/api/" "/api/hello" = true ∧
      isPublicRoute "/api/hello" = false ∧ isProtectedRoute "/api/hello" = false) ∧
    middlewareHandler "/api/hello" .throwsAuth (some "1.2.3.4") none
      rateLimitersInit 0 false = (.proceed nextResponse, rateLimitersInit) := by
  refine ⟨⟨by decide, by decide, by decide, by decide, by decide, by decide⟩, ?_⟩
  exact (c4_identity_failure_amended "/api/hello" (some "1.2.3.4") none
    rateLimitersInit 0 false (by decide) (by decide) (by decide) (by decide)
    (by decide) (by decide)).1

/-! ## C9: rejection and acceptance metadata (corrected) -/

theorem getHeader_setHeader_self (hs : List (String × String)) (k v : String) :
    getHeader (setHeader hs k v) k = some v := by
  induction hs with
  | nil => simp [setHeader, getHeader]
  | cons p rest ih =>
    by_cases hp : p.1 = k
    · simp [setHeader, getHeader, hp]
    · simp [setHeader, getHeader, hp, ih]

theorem getHeader_setHeader_ne (hs : List (String × String)) (k k' v : String)
    (h : k' ≠ k) :
    getHeader (setHeader hs k v) k' = getHeader hs k' := by
  induction hs with
  | nil => simp [setHeader, getHeader, Ne.symm h]
  | cons p rest ih =>
    by_cases hp : p.1 = k
    · simp [setHeader, getHeader, hp, Ne.symm h]
    · simp [setHeader, getHeader, hp, ih]

/-- Counterexample to C9 as stated: on the allowed path the middleware
attaches headers via `addRateLimitHeaders`, which sets only
`X-RateLimit-Remaining` and `X-RateLimit-Reset` — `Retry-After` is *not*
among the headers attached to an accepted response. -/
theorem c9_counterexample :
    getHeader (addRateLimitHeaders nextResponse 3 60000).headers "Retry-After" = none ∧
    getHeader (addRateLimitHeaders nextResponse 3 60000).headers
      "X-RateLimit-Remaining" = some "3" ∧
    getHeader (addRateLimitHeaders nextResponse 3 60000).headers
      "X-RateLimit-Reset" = some "60" := by decide

/-- C9 (amended) — A denied decision produces the 429 rejection whose JSON
body carries the human-readable message and the ISO-8601 `resetTime`
(`new Date(resetTime).toISOString()`), with headers `X-RateLimit-Limit`
(the hardcoded `"5"`), `X-RateLimit-Remaining`, `X-RateLimit-Reset`
(`ceil(resetTime / 1000)`), and `Retry-After` equal to the seconds until
reset rounded up (`ceil((resetTime - now) / 1000)`).  An allowed decision
gets exactly `X-RateLimit-Remaining` and `X-RateLimit-Reset` attached to the
response — two headers, not three: `Retry-After` is left untouched. -/
theorem c9_rate_limit_metadata_amended (resetTime remaining now : Int) (resp : Response) :
    (createRateLimitResponse resetTime remaining now).status = 429 ∧
    (createRateLimitResponse resetTime remaining now).bodyError =
      some "Too many requests. Please try again later." ∧
    (createRateLimitResponse resetTime remaining now).bodyResetTime =
      some (dateToISOString resetTime) ∧
    getHeader (createRateLimitResponse resetTime remaining now).headers
      "X-RateLimit-Limit" = some "5" ∧
    getHeader (createRateLimitResponse resetTime remaining now).headers
      "X-RateLimit-Remaining" = some (intToStr remaining) ∧
    getHeader (createRateLimitResponse resetTime remaining now).headers
      "X-RateLimit-Reset" = some (intToStr (jsCeilDiv resetTime 1000)) ∧
    getHeader (createRateLimitResponse resetTime remaining now).headers
      "Retry-After" = some (intToStr (jsCeilDiv (resetTime - now) 1000)) ∧
    getHeader (addRateLimitHeaders resp remaining resetTime).headers
      "X-RateLimit-Remaining" = some (intToStr remaining) ∧
    getHeader (addRateLimitHeaders resp remaining resetTime).headers
      "X-RateLimit-Reset" = some (intToStr (jsCeilDiv resetTime 1000)) ∧
    getHeader (addRateLimitHeaders resp remaining resetTime).headers
      "Retry-After" = getHeader resp.headers "Retry-After" := by
  refine ⟨rfl, rfl, rfl, ?_, ?_, ?_, ?_, ?_, ?_, ?_⟩
  · rw [createRateLimitResponse]
    rw [getHeader_setHeader_ne _ _ _ _ (by decide), getHeader_setHeader_ne _ _ _ _ (by decide),
      getHeader_setHeader_ne _ _ _ _ (by decide), getHeader_setHeader_self]
  · rw [createRateLimitResponse]
    rw [getHeader_setHeader_ne _ _ _ _ (by decide), getHeader_setHeader_ne _ _ _ _ (by decide),
      getHeader_setHeader_self]
  · rw [createRateLimitResponse]
    rw [getHeader_setHeader_ne _ _ _ _ (by decide), getHeader_setHeader_self]
  · rw [createRateLimitResponse, getHeader_setHeader_self]
  · rw [addRateLimitHeaders]
    rw [getHeader_setHeader_ne _ _ _ _ (by decide), getHeader_setHeader_self]
  · rw [addRateLimitHeaders, getHeader_setHeader_self]
  · rw [addRateLimitHeaders]
    rw [getHeader_setHeader_ne _ _ _ _ (by decide), getHeader_setHeader_ne _ _ _ _ (by decide)]
